import Mathlib

/-!
Verification of the semantic-cache-augmented retrieval-and-generation flow of
`labs/03-orchestration/03-VectorStore/mongo.ipynb`.

The notebook is glue code around external services (Azure OpenAI embedding and
chat endpoints, Azure Cosmos DB for MongoDB vCore).  We embed the notebook's own
logic directly: the `create_collection_and_vector_index` function, the
tenacity-decorated `generate_embeddings` function, the ingestion loop, and the
database-setup cell.  External endpoints are modelled as oracles (functions from
call index to an optional response), so that retry and failure-propagation
behaviour of the calling code can be stated and proved.  The parts of the flow
implemented inside LangChain (`AzureCosmosDBSemanticCache`, the retriever) are
modelled from the spec, as marked on the corresponding definitions.
-/

namespace IntroApps

/-- An embedding vector, as the notebook receives it from the embedding
endpoint: a finite list of numbers (modelled over `ℚ`). -/
abbrev Vec := List ℚ

/-! ## The vector-index creation command (`create_collection_and_vector_index`) -/

/-- The `cosmosSearchOptions` object of the `createIndexes` command built in
`create_collection_and_vector_index`. -/
structure VectorIndexOptions where
  kind : String
  m : Nat
  efConstruction : Nat
  similarity : String
  dimensions : Nat
deriving DecidableEq

/-- The `createIndexes` command issued by `create_collection_and_vector_index`:
target collection, index name, the document property mapped to `cosmosSearch`,
and the index options. -/
structure CreateIndexesCommand where
  createIndexes : String
  indexName : String
  searchKeyField : String
  options : VectorIndexOptions
deriving DecidableEq

/-- Embeds `create_collection_and_vector_index(database, cosmos_collection,
vector_property, embeddings_dimensions)` from the notebook: the function's
observable effect is the `database.command({...})` call, so we return the
command it issues.  All option values are literal constants in the source; in
particular the `dimensions` field is the literal `1536`, not the
`embeddings_dimensions` parameter. -/
def create_collection_and_vector_index (cosmos_collection vector_property : String)
    (embeddings_dimensions : Nat) : CreateIndexesCommand :=
  { createIndexes := cosmos_collection
    indexName := "VectorSearchIndex"
    searchKeyField := vector_property
    options :=
      { kind := "vector-hnsw"
        m := 16
        efConstruction := 64
        similarity := "COS"
        dimensions := 1536 } }

/-! ## The embedding endpoint and the retry-decorated `generate_embeddings` -/

/-- The request `generate_embeddings` sends to
`openai_client.embeddings.create`: the input text, the model (deployment name
read from the environment), and the requested number of dimensions. -/
structure EmbeddingRequest where
  input : String
  model : String
  dimensions : Nat
deriving DecidableEq

/-- An oracle for the embedding endpoint: `oracle req i` is the outcome of the
`(i+1)`-st call issued for request `req` — `none` for a failure (for example a
rate-limit error), `some v` for a successful response carrying vector `v`. -/
abbrev EmbeddingOracle := EmbeddingRequest → Nat → Option Vec

/-- The bounded retry loop implemented by the tenacity decorator
`@retry(..., stop=stop_after_attempt(20))`: with `fuel` attempts remaining and
`used` calls already made, issue the next call; on success return the response,
on failure retry; when the attempt budget is exhausted the last failure
propagates.  Returns the final outcome together with the total number of
endpoint calls made. -/
def retryLoop (endpoint : Nat → Option Vec) : Nat → Nat → Option Vec × Nat
  | 0, used => (none, used)
  | fuel + 1, used =>
    match endpoint used with
    | some v => (some v, used + 1)
    | none => retryLoop endpoint fuel (used + 1)

/-- The attempt cap configured by `stop_after_attempt(20)` on
`generate_embeddings`. -/
def retryStopAfterAttempts : Nat := 20

/-- The upper end of the randomized wait interval used by tenacity's
`wait_random_exponential(min=1, max=200)` before retry number `attempt`
(attempts numbered from 1): the exponential value `multiplier * 2 ^ (attempt - 1)`
clamped into `[mi, ma]`; the actual wait is drawn uniformly from `[0, high]`. -/
def wait_random_exponential_high (multiplier mi ma : ℚ) (attempt : Nat) : ℚ :=
  max (max 0 mi) (min (multiplier * 2 ^ (attempt - 1)) ma)

/-- The request body built inside `generate_embeddings`: input text, the
deployment name read from the environment, and the literal `dimensions=1536`. -/
def embeddingRequest (deployment text : String) : EmbeddingRequest :=
  { input := text, model := deployment, dimensions := 1536 }

/-- Embeds `generate_embeddings(text)` from the notebook: a call to
`openai_client.embeddings.create(input=text, model=<deployment>, dimensions=1536)`
wrapped by `@retry(wait=wait_random_exponential(min=1, max=200),
stop=stop_after_attempt(20))`.  The endpoint is the oracle; the result is the
final outcome (the embedding on success, `none` when all 20 attempts failed)
together with the number of endpoint calls made. -/
def generate_embeddings (deployment : String) (oracle : EmbeddingOracle)
    (text : String) : Option Vec × Nat :=
  retryLoop (oracle (embeddingRequest deployment text)) retryStopAfterAttempts 0

/-- Embeds the query-path embedding client `embeddings = AzureOpenAIEmbeddings(...)`
from the notebook: it carries no retry decorator, so a query-time embedding is a
single endpoint call whose failure propagates immediately.  Returns the outcome
of that one call together with the number of endpoint calls made (always 1). -/
def embeddings_embed_query (endpoint : Nat → Option Vec) : Option Vec × Nat :=
  (endpoint 0, 1)

/-! Basic facts about the retry loop. -/

/-- If the first `f` calls fail and call `f` succeeds, with `f` below the
remaining attempt budget, the retry loop returns that success after `f + 1`
calls beyond those already made. -/
theorem retryLoop_success (endpoint : Nat → Option Vec) (v : Vec) :
    ∀ fuel used f, f < fuel → (∀ i, i < f → endpoint (used + i) = none) →
      endpoint (used + f) = some v →
      retryLoop endpoint fuel used = (some v, used + f + 1) := by
  intro fuel
  induction fuel with
  | zero => intro used f hf; omega
  | succ n ih =>
    intro used f hf hfail hsucc
    cases f with
    | zero =>
      simp only [retryLoop]
      rw [show used + 0 = used from rfl] at hsucc
      rw [hsucc]
    | succ f =>
      have h0 : endpoint used = none := by
        have := hfail 0 (by omega)
        simpa using this
      simp only [retryLoop, h0]
      have := ih (used + 1) f (by omega)
        (fun i hi => by
          have := hfail (i + 1) (by omega)
          rw [show used + 1 + i = used + (i + 1) by omega]
          exact this)
        (by rw [show used + 1 + f = used + (f + 1) by omega]; exact hsucc)
      rw [this, show used + 1 + f + 1 = used + (f + 1) + 1 by omega]

/-- If every call in the remaining budget fails, the retry loop exhausts the
budget and propagates the failure. -/
theorem retryLoop_exhaust (endpoint : Nat → Option Vec) :
    ∀ fuel used, (∀ i, i < fuel → endpoint (used + i) = none) →
      retryLoop endpoint fuel used = (none, used + fuel) := by
  intro fuel
  induction fuel with
  | zero => intro used _; simp [retryLoop]
  | succ n ih =>
    intro used hfail
    have h0 : endpoint used = none := by
      have := hfail 0 (by omega)
      simpa using this
    simp only [retryLoop, h0]
    have := ih (used + 1) (fun i hi => by
      rw [show used + 1 + i = used + (i + 1) by omega]
      exact hfail (i + 1) (by omega))
    rw [this, show used + 1 + n = used + (n + 1) by omega]

/-- A successful retry-loop result is the response of one of the endpoint
calls. -/
theorem retryLoop_some_of_call (endpoint : Nat → Option Vec) (v : Vec) :
    ∀ fuel used, (retryLoop endpoint fuel used).1 = some v →
      ∃ j, endpoint j = some v := by
  intro fuel
  induction fuel with
  | zero => intro used h; simp [retryLoop] at h
  | succ n ih =>
    intro used h
    simp only [retryLoop] at h
    cases hcall : endpoint used with
    | some w =>
      rw [hcall] at h
      simp only at h
      exact ⟨used, by rw [hcall, h]⟩
    | none =>
      rw [hcall] at h
      exact ih (used + 1) h

/-! ## The ingestion loop (stream, vectorize and store) -/

/-- An input record from the streamed JSON array: the `overview` text field used
for embedding, plus the remaining JSON fields, opaque to the loop. -/
structure MovieRecord where
  overview : String
  payload : List (String × String)
deriving DecidableEq

/-- A document as inserted into the content collection: the input record
augmented with the embedding vector stored under the configured vector
property. -/
structure StoredDoc where
  record : MovieRecord
  vector : Vec
deriving DecidableEq

/-- The state threaded through the ingestion loop: the content collection in
insertion order, the `counter` variable, and the values of `counter` at which
the loop executed its `sleep(.5)` pause. -/
structure IngestState where
  docs : List StoredDoc
  counter : Nat
  sleepsAt : List Nat
deriving DecidableEq

/-- The duration, in seconds, of the fixed pause the ingestion loop takes
(`sleep(.5)`). -/
def ingestPauseSeconds : ℚ := 1 / 2

/-- One iteration body of the ingestion loop after a successful embedding call:
insert the augmented document, increment the counter, and pause when the
counter is a multiple of 100. -/
def ingestInsert (st : IngestState) (r : MovieRecord) (v : Vec) : IngestState :=
  let docs := st.docs ++ [{ record := r, vector := v }]
  let counter := st.counter + 1
  if counter % 100 == 0 then
    { docs := docs, counter := counter, sleepsAt := st.sleepsAt ++ [counter] }
  else
    { docs := docs, counter := counter, sleepsAt := st.sleepsAt }

/-- Embeds the ingestion cell: a single pass over the streamed records, calling
`generate_embeddings` on each record's `overview`, inserting the augmented
document, and counting.  An exhausted retry (embedding failure) raises, halting
the loop with the store as it was before the failing record. -/
def ingest (deployment : String) (oracle : EmbeddingOracle) :
    List MovieRecord → IngestState → Except IngestState IngestState
  | [], st => .ok st
  | r :: rs, st =>
    match (generate_embeddings deployment oracle r.overview).1 with
    | none => .error st
    | some v => ingest deployment oracle rs (ingestInsert st r v)

/-- The counter values in `(c, c + n]` at which the loop pauses: the multiples
of 100 among the counter values taken during `n` further iterations starting
from counter `c`. -/
def pausePoints (c n : Nat) : List Nat :=
  ((List.range n).map (fun i => c + i + 1)).filter (fun m => m % 100 == 0)

theorem ingestInsert_docs (st : IngestState) (r : MovieRecord) (v : Vec) :
    (ingestInsert st r v).docs = st.docs ++ [{ record := r, vector := v }] := by
  by_cases h : (st.counter + 1) % 100 == 0 <;> simp [ingestInsert, h]

theorem ingestInsert_counter (st : IngestState) (r : MovieRecord) (v : Vec) :
    (ingestInsert st r v).counter = st.counter + 1 := by
  by_cases h : (st.counter + 1) % 100 == 0 <;> simp [ingestInsert, h]

theorem ingestInsert_sleepsAt (st : IngestState) (r : MovieRecord) (v : Vec) :
    (ingestInsert st r v).sleepsAt =
      st.sleepsAt ++ (if (st.counter + 1) % 100 == 0 then [st.counter + 1] else []) := by
  by_cases h : (st.counter + 1) % 100 == 0 <;> simp [ingestInsert, h]

theorem pausePoints_zero (c : Nat) : pausePoints c 0 = [] := rfl

theorem pausePoints_succ (c n : Nat) :
    pausePoints c (n + 1) =
      (if (c + 1) % 100 == 0 then [c + 1] else []) ++ pausePoints (c + 1) n := by
  unfold pausePoints
  rw [List.range_succ_eq_map]
  simp only [List.map_cons, List.map_map, List.filter_cons]
  have hmap : (List.range n).map ((fun i => c + i + 1) ∘ Nat.succ)
      = (List.range n).map (fun i => c + 1 + i + 1) := by
    apply List.map_congr_left
    intro i _
    simp only [Function.comp]
    omega
  rw [hmap]
  by_cases h : (c + 0 + 1) % 100 == 0
  · rw [if_pos h]
    rw [show c + 0 + 1 = c + 1 from rfl] at h
    rw [if_pos h]
    rfl
  · rw [if_neg h]
    rw [show c + 0 + 1 = c + 1 from rfl] at h
    rw [if_neg h]
    rfl

/-- The master lemma about a successful ingestion run: starting from any state,
when every embedding call succeeds the loop returns normally; the final store
is the initial store followed by the input records in stream order, each
exactly once; the counter advances by the number of records; the pauses happen
exactly at the multiples of 100 reached by the counter; and every inserted
vector is a response of the embedding endpoint for that record's `overview`. -/
theorem ingest_ok (deployment : String) (oracle : EmbeddingOracle)
    (hsucc : ∀ t : String, ((generate_embeddings deployment oracle t).1).isSome) :
    ∀ (rs : List MovieRecord) (st : IngestState),
      ∃ st', ingest deployment oracle rs st = .ok st' ∧
        st'.docs.map StoredDoc.record = st.docs.map StoredDoc.record ++ rs ∧
        st'.counter = st.counter + rs.length ∧
        st'.sleepsAt = st.sleepsAt ++ pausePoints st.counter rs.length ∧
        ∀ d ∈ st'.docs, d ∈ st.docs ∨
          ∃ j, oracle (embeddingRequest deployment d.record.overview) j
            = some d.vector := by
  intro rs
  induction rs with
  | nil =>
    intro st
    exact ⟨st, rfl, by simp, by simp, by simp [pausePoints_zero],
      fun d hd => Or.inl hd⟩
  | cons r rs ih =>
    intro st
    obtain ⟨v, hv⟩ := Option.isSome_iff_exists.mp (hsucc r.overview)
    obtain ⟨st', hrun, hdocs, hcounter, hsleeps, hvecs⟩ := ih (ingestInsert st r v)
    refine ⟨st', ?_, ?_, ?_, ?_, ?_⟩
    · rw [show ingest deployment oracle (r :: rs) st =
        (match (generate_embeddings deployment oracle r.overview).1 with
          | none => .error st
          | some v => ingest deployment oracle rs (ingestInsert st r v)) from rfl]
      rw [hv]
      exact hrun
    · rw [hdocs, ingestInsert_docs]
      simp
    · rw [hcounter, ingestInsert_counter]
      simp only [List.length_cons]
      omega
    · rw [hsleeps, ingestInsert_sleepsAt, ingestInsert_counter]
      rw [List.append_assoc, List.length_cons, pausePoints_succ]
    · intro d hd
      rcases hvecs d hd with hmem | hresp
      · rw [ingestInsert_docs] at hmem
        rcases List.mem_append.mp hmem with h | h
        · exact Or.inl h
        · rcases List.mem_singleton.mp h with rfl
          refine Or.inr ?_
          obtain ⟨j, hj⟩ := retryLoop_some_of_call _ v retryStopAfterAttempts 0 hv
          exact ⟨j, hj⟩
      · exact Or.inr hresp

/-! ## The database-setup cell -/

/-- A database on the Cosmos DB server, as far as this notebook observes it: a
map from collection name to the documents it holds (serialized, opaque here).
`none` means the collection does not exist. -/
structure CosmosDatabase where
  colls : String → Option (List String)

/-- The server state: a map from database name to database; `none` means no
database of that name exists. -/
abbrev ServerState := String → Option CosmosDatabase

/-- Embeds `cosmos_client.drop_database(name)`: the database and everything in
it is removed. -/
def drop_database (server : ServerState) (name : String) : ServerState :=
  fun n => if n = name then none else server n

/-- The server-side effect of one `create_collection_and_vector_index` call:
the `createIndexes` command creates the target collection (empty) when it does
not exist yet, creating the database as needed, and keeps an existing
collection's documents. -/
def createCollection (server : ServerState) (dbName collName : String) : ServerState :=
  let db := (server dbName).getD { colls := fun _ => none }
  let db' : CosmosDatabase :=
    { colls := fun c =>
        if c = collName then some ((db.colls collName).getD []) else db.colls c }
  fun n => if n = dbName then some db' else server n

/-- Embeds the database-setup cell: drop the configured database when it
already exists, then create the content collection and the cache collection
(each with its vector index) via `create_collection_and_vector_index`. -/
def setupCell (server : ServerState) (dbName collName cacheName : String) : ServerState :=
  let s1 := if (server dbName).isSome then drop_database server dbName else server
  let s2 := createCollection s1 dbName collName
  createCollection s2 dbName cacheName

/-! ## The semantic cache and the query flow (`prepare_chain`)

The cache lookup/store logic itself lives in LangChain's
`AzureCosmosDBSemanticCache` and `ConversationalRetrievalChain`, outside this
repository; `prepare_chain` only configures it (similarity `COS`, cache
`score_threshold = 0.99`, retriever `k = 5`, `score_threshold = 0.2`).  The
flow below is therefore modelled from the spec, with the thresholds taken from
`prepare_chain`. -/

/-- A semantic-cache entry: the question text, its embedding, and the stored
answer. -/
structure CacheEntry where
  prompt : String
  vector : Vec
  answer : String
deriving DecidableEq

/-- The cache-hit similarity threshold configured in `prepare_chain`
(`score_threshold = 0.99`). -/
def cacheScoreThreshold : ℚ := 99 / 100

/-- The number of neighbours the retriever returns, configured in
`prepare_chain` (`"k": 5`). -/
def retrieverK : Nat := 5

/-- The retriever similarity threshold configured in `prepare_chain`
(`'score_threshold': 0.2`). -/
def retrieverScoreThreshold : ℚ := 1 / 5

/-- Modelled from the spec: the cache probe performed by LangChain's
`AzureCosmosDBSemanticCache` (spec 4.3), which is not part of this repository's
source.  Among the cached entries whose question embedding has similarity at
least the 0.99 threshold to the query embedding, return the most similar one;
return `none` when no entry reaches the threshold. -/
def cacheLookup (sim : Vec → Vec → ℚ) (qv : Vec) (cache : List CacheEntry) :
    Option CacheEntry :=
  (cache.filter (fun e => cacheScoreThreshold ≤ sim qv e.vector)).argmax
    (fun e => sim qv e.vector)

/-- The outcome of one query through the chain: the answer delivered to the
caller (`none` when the generation call failed and the error propagated), the
number of generation-endpoint invocations made, and the cache store afterward. -/
structure QueryOutcome where
  answer : Option String
  genCalls : Nat
  cache : List CacheEntry
deriving DecidableEq

/-- Modelled from the spec: the semantic-cache-augmented query flow (spec 4.3
and 4.4) implemented by LangChain around the configuration in `prepare_chain`,
which is not part of this repository's source.  Probe the cache with the
question's embedding; on a hit return the stored answer without invoking
generation; on a miss invoke generation once and, only after it succeeds,
persist the (question, embedding, answer) entry; a failed generation propagates
and writes nothing. -/
def queryFlow (sim : Vec → Vec → ℚ) (embed : String → Vec)
    (gen : String → Option String) (cache : List CacheEntry) (q : String) :
    QueryOutcome :=
  let qv := embed q
  match cacheLookup sim qv cache with
  | some e => { answer := some e.answer, genCalls := 0, cache := cache }
  | none =>
    match gen q with
    | none => { answer := none, genCalls := 1, cache := cache }
    | some a =>
        { answer := some a, genCalls := 1,
          cache := cache ++ [{ prompt := q, vector := qv, answer := a }] }

/-- Modelled from the spec: the vector store's similarity retrieval (spec 4.2),
performed by the managed store outside this repository's source: the documents
at or above the similarity threshold, best first, truncated to the first `k`. -/
def similaritySearch (sim : Vec → Vec → ℚ) (k : Nat) (threshold : ℚ) (qv : Vec)
    (store : List StoredDoc) : List StoredDoc :=
  ((store.filter (fun d => threshold ≤ sim qv d.vector)).insertionSort
    (fun a b => sim qv b.vector ≤ sim qv a.vector)).take k

/-- The content-store retrieval step with the parameters configured in
`prepare_chain`: `k = 5`, `score_threshold = 0.2`. -/
def retrieve (sim : Vec → Vec → ℚ) (qv : Vec) (store : List StoredDoc) :
    List StoredDoc :=
  similaritySearch sim retrieverK retrieverScoreThreshold qv store

/-! ## Claim theorems -/

/-- C9: `create_collection_and_vector_index` ignores its
`embeddings_dimensions` parameter: for any two values of that argument (all
other arguments equal) the issued index-creation command is identical, and it
always declares kind `vector-hnsw`, `m` 16, `efConstruction` 64, similarity
`COS`, and dimensions 1536. -/
theorem claim9_dimensions_parameter_ignored (coll vecProp : String) (d₁ d₂ : Nat) :
    create_collection_and_vector_index coll vecProp d₁ =
      create_collection_and_vector_index coll vecProp d₂ ∧
    (create_collection_and_vector_index coll vecProp d₁).options =
      { kind := "vector-hnsw", m := 16, efConstruction := 64,
        similarity := "COS", dimensions := 1536 } :=
  ⟨rfl, rfl⟩

/-- C4: every ingestion-path embedding call is retried with a randomized
exponential wait whose interval is bounded by 200 seconds, stopping after the
20-attempt cap: a failure sequence shorter than the cap ends in the successful
response; if all 20 attempts fail the failure propagates, and the ingestion
step on that record fails with the content store left without an entry for
it. -/
theorem claim4_ingestion_retry_policy (deployment text : String)
    (oracle : EmbeddingOracle) (r : MovieRecord) (rs : List MovieRecord)
    (st : IngestState) :
    (∀ f v, f < retryStopAfterAttempts →
        (∀ i, i < f → oracle (embeddingRequest deployment text) i = none) →
        oracle (embeddingRequest deployment text) f = some v →
        generate_embeddings deployment oracle text = (some v, f + 1)) ∧
    ((∀ i, i < retryStopAfterAttempts →
        oracle (embeddingRequest deployment text) i = none) →
      generate_embeddings deployment oracle text = (none, retryStopAfterAttempts)) ∧
    retryStopAfterAttempts = 20 ∧
    (∀ attempt, wait_random_exponential_high 1 1 200 attempt ≤ 200) ∧
    ((∀ i, i < retryStopAfterAttempts →
        oracle (embeddingRequest deployment r.overview) i = none) →
      ingest deployment oracle (r :: rs) st = .error st) := by
  refine ⟨?_, ?_, rfl, ?_, ?_⟩
  · intro f v hf hfail hsucc
    unfold generate_embeddings
    have := retryLoop_success (oracle (embeddingRequest deployment text)) v
      retryStopAfterAttempts 0 f hf (fun i hi => by simpa using hfail i hi)
      (by simpa using hsucc)
    simpa using this
  · intro hfail
    unfold generate_embeddings
    have := retryLoop_exhaust (oracle (embeddingRequest deployment text))
      retryStopAfterAttempts 0 (fun i hi => by simpa using hfail i hi)
    simpa using this
  · intro attempt
    unfold wait_random_exponential_high
    apply max_le
    · norm_num
    · exact le_trans (min_le_right _ _) (by norm_num)
  · intro hfail
    have hgen : generate_embeddings deployment oracle r.overview
        = (none, retryStopAfterAttempts) := by
      unfold generate_embeddings
      have := retryLoop_exhaust (oracle (embeddingRequest deployment r.overview))
        retryStopAfterAttempts 0 (fun i hi => by simpa using hfail i hi)
      simpa using this
    rw [show ingest deployment oracle (r :: rs) st =
      (match (generate_embeddings deployment oracle r.overview).1 with
        | none => .error st
        | some v => ingest deployment oracle rs (ingestInsert st r v)) from rfl]
    rw [hgen]

/-- C4 witness: with an endpoint that always fails, `generate_embeddings`
propagates the failure after 20 attempts and the ingestion step on a record
fails with the store unchanged. -/
theorem claim4_witness :
    generate_embeddings "dep" (fun _ _ => none) "toy spaceship"
        = (none, retryStopAfterAttempts) ∧
      ingest "dep" (fun _ _ => none)
          [{ overview := "toy spaceship", payload := [] }]
          { docs := [], counter := 0, sleepsAt := [] }
        = .error { docs := [], counter := 0, sleepsAt := [] } :=
  ⟨(claim4_ingestion_retry_policy "dep" "toy spaceship" (fun _ _ => none)
      { overview := "toy spaceship", payload := [] } []
      { docs := [], counter := 0, sleepsAt := [] }).2.1
      (fun _ _ => rfl),
    (claim4_ingestion_retry_policy "dep" "toy spaceship" (fun _ _ => none)
      { overview := "toy spaceship", payload := [] } []
      { docs := [], counter := 0, sleepsAt := [] }).2.2.2.2
      (fun _ _ => rfl)⟩

/-- C5: when every embedding call eventually succeeds and the endpoint honours
the requested dimensionality, ingesting `N` records inserts exactly `N`
documents into the content store, each augmented with an embedding vector of
length 1536. -/
theorem claim5_ingestion_count_and_dimensions (deployment : String)
    (oracle : EmbeddingOracle) (rs : List MovieRecord)
    (hsucc : ∀ t : String, ((generate_embeddings deployment oracle t).1).isSome)
    (hdim : ∀ req i v, oracle req i = some v → v.length = req.dimensions) :
    ∃ st, ingest deployment oracle rs { docs := [], counter := 0, sleepsAt := [] }
        = .ok st ∧
      st.docs.length = rs.length ∧
      ∀ d ∈ st.docs, d.vector.length = 1536 := by
  obtain ⟨st, hrun, hdocs, _, _, hvec⟩ := ingest_ok deployment oracle hsucc rs _
  refine ⟨st, hrun, ?_, ?_⟩
  · have := congrArg List.length hdocs
    simpa using this
  · intro d hd
    rcases hvec d hd with h | ⟨j, hj⟩
    · simp at h
    · have := hdim _ j _ hj
      simpa [embeddingRequest] using this

/-- C5 witness: ingesting one record through an endpoint that returns a
1536-dimensional zero vector inserts exactly one document with a vector of
length 1536. -/
theorem claim5_witness :
    ∃ st,
      ingest "dep" (fun req _ => some (List.replicate req.dimensions 0))
          [{ overview := "toy spaceship", payload := [] }]
          { docs := [], counter := 0, sleepsAt := [] } = .ok st ∧
        st.docs.length = 1 ∧
        ∀ d ∈ st.docs, d.vector.length = 1536 :=
  claim5_ingestion_count_and_dimensions "dep"
    (fun req _ => some (List.replicate req.dimensions 0))
    [{ overview := "toy spaceship", payload := [] }]
    (fun _ => rfl)
    (fun req i v hv => by
      cases hv
      exact List.length_replicate _ _)

/-- C7: when every embedding call succeeds, ingestion makes one sequential
pass over the finite stream — the final store lists exactly the input records
in stream order, each once — the counter equals the number of records, the
fixed 0.5-second pause happens exactly at the multiples of 100 reached by the
counter, and the loop returns normally when the stream is exhausted. -/
theorem claim7_single_pass_with_periodic_pause (deployment : String)
    (oracle : EmbeddingOracle) (rs : List MovieRecord)
    (hsucc : ∀ t : String, ((generate_embeddings deployment oracle t).1).isSome) :
    ∃ st, ingest deployment oracle rs { docs := [], counter := 0, sleepsAt := [] }
        = .ok st ∧
      st.docs.map StoredDoc.record = rs ∧
      st.counter = rs.length ∧
      st.sleepsAt = pausePoints 0 rs.length ∧
      ingestPauseSeconds = 1 / 2 := by
  obtain ⟨st, hrun, hdocs, hcounter, hsleeps, _⟩ := ingest_ok deployment oracle hsucc rs _
  exact ⟨st, hrun, by simpa using hdocs, by simpa using hcounter,
    by simpa using hsleeps, rfl⟩

/-- C7 witness: ingesting two records through an always-successful endpoint
stores exactly those two records in order with no pause. -/
theorem claim7_witness :
    ∃ st,
      ingest "dep" (fun req _ => some (List.replicate req.dimensions 0))
          [{ overview := "a", payload := [] }, { overview := "b", payload := [] }]
          { docs := [], counter := 0, sleepsAt := [] } = .ok st ∧
        st.docs.map StoredDoc.record
          = [{ overview := "a", payload := [] }, { overview := "b", payload := [] }] ∧
        st.counter = 2 ∧
        st.sleepsAt = pausePoints 0 2 ∧
        ingestPauseSeconds = 1 / 2 :=
  claim7_single_pass_with_periodic_pause "dep"
    (fun req _ => some (List.replicate req.dimensions 0))
    [{ overview := "a", payload := [] }, { overview := "b", payload := [] }]
    (fun _ => rfl)

/-- C10: only `generate_embeddings` carries the bounded-retry decorator; the
query-path embedding client `embeddings` is a separate, undecorated client
that makes exactly one endpoint call, so a query-time embedding failure
propagates immediately, while the ingestion path retries up to the 20-attempt
cap. -/
theorem claim10_query_embedding_not_retried (endpoint : Nat → Option Vec)
    (deployment text : String) (oracle : EmbeddingOracle) :
    (embeddings_embed_query endpoint).2 = 1 ∧
    (endpoint 0 = none → embeddings_embed_query endpoint = (none, 1)) ∧
    ((∀ i, i < retryStopAfterAttempts →
        oracle (embeddingRequest deployment text) i = none) →
      generate_embeddings deployment oracle text = (none, retryStopAfterAttempts)) := by
  refine ⟨rfl, ?_, ?_⟩
  · intro h
    unfold embeddings_embed_query
    rw [h]
  · intro hfail
    unfold generate_embeddings
    have := retryLoop_exhaust (oracle (embeddingRequest deployment text))
      retryStopAfterAttempts 0 (fun i hi => by simpa using hfail i hi)
    simpa using this

/-- C10 witness: with an always-failing endpoint, the query-path client fails
after its single call while the decorated ingestion-path function fails only
after 20 calls. -/
theorem claim10_witness :
    embeddings_embed_query (fun _ => none) = (none, 1) ∧
      generate_embeddings "dep" (fun _ _ => none) "q" = (none, retryStopAfterAttempts) :=
  ⟨(claim10_query_embedding_not_retried (fun _ => none) "dep" "q"
      (fun _ _ => none)).2.1 rfl,
    (claim10_query_embedding_not_retried (fun _ => none) "dep" "q"
      (fun _ _ => none)).2.2 (fun _ _ => rfl)⟩

/-- C1: for every question whose embedding has similarity at least the 0.99
cache threshold to the question embedding of some existing cache entry, the
query flow returns a matching entry's stored answer verbatim, makes zero
generation calls, and leaves the cache unchanged. -/
theorem claim1_cache_hit_skips_generation (sim : Vec → Vec → ℚ)
    (embed : String → Vec) (gen : String → Option String)
    (cache : List CacheEntry) (q : String)
    (h : ∃ e ∈ cache, cacheScoreThreshold ≤ sim (embed q) e.vector) :
    ∃ e ∈ cache, cacheScoreThreshold ≤ sim (embed q) e.vector ∧
      queryFlow sim embed gen cache q =
        { answer := some e.answer, genCalls := 0, cache := cache } := by
  obtain ⟨e₀, he₀, hsim₀⟩ := h
  have hmem : e₀ ∈ cache.filter
      (fun e => cacheScoreThreshold ≤ sim (embed q) e.vector) := by
    rw [List.mem_filter]
    exact ⟨he₀, by simpa using hsim₀⟩
  have hne : cache.filter (fun e => cacheScoreThreshold ≤ sim (embed q) e.vector)
      ≠ [] := by
    intro hnil
    rw [hnil] at hmem
    exact absurd hmem (List.not_mem_nil _)
  have hlook : ∃ m, cacheLookup sim (embed q) cache = some m := by
    unfold cacheLookup
    cases hm : (cache.filter
        (fun e => cacheScoreThreshold ≤ sim (embed q) e.vector)).argmax
        (fun e => sim (embed q) e.vector) with
    | none => exact absurd (List.argmax_eq_none.mp hm) hne
    | some m => exact ⟨m, rfl⟩
  obtain ⟨m, hm⟩ := hlook
  have hmmem : m ∈ cache.filter
      (fun e => cacheScoreThreshold ≤ sim (embed q) e.vector) :=
    List.argmax_mem hm
  rw [List.mem_filter] at hmmem
  refine ⟨m, hmmem.1, by simpa using hmmem.2, ?_⟩
  simp only [queryFlow]
  rw [hm]

/-- C1 witness: with a similarity that always reports 1 and a one-entry cache,
the query flow answers from the cache with zero generation calls. -/
theorem claim1_witness :
    ∃ e ∈ [{ prompt := "q0", vector := [], answer := "a0" : CacheEntry }],
      cacheScoreThreshold ≤ (fun _ _ => (1 : ℚ)) ((fun _ => ([] : Vec)) "q1") e.vector ∧
      queryFlow (fun _ _ => (1 : ℚ)) (fun _ => ([] : Vec)) (fun _ => some "generated")
          [{ prompt := "q0", vector := [], answer := "a0" }] "q1" =
        { answer := some e.answer, genCalls := 0,
          cache := [{ prompt := "q0", vector := [], answer := "a0" }] } :=
  claim1_cache_hit_skips_generation (fun _ _ => (1 : ℚ)) (fun _ => ([] : Vec))
    (fun _ => some "generated")
    [{ prompt := "q0", vector := [], answer := "a0" }] "q1"
    ⟨{ prompt := "q0", vector := [], answer := "a0" }, by simp,
      by norm_num [cacheScoreThreshold]⟩

/-- A helper shared by the cache-miss claims: when every entry's similarity is
strictly below the threshold, the cache probe misses. -/
theorem cacheLookup_none_of_below (sim : Vec → Vec → ℚ) (qv : Vec)
    (cache : List CacheEntry)
    (hmiss : ∀ e ∈ cache, sim qv e.vector < cacheScoreThreshold) :
    cacheLookup sim qv cache = none := by
  unfold cacheLookup
  rw [List.argmax_eq_none]
  rw [List.filter_eq_nil_iff]
  intro e he
  simp only [decide_eq_true_eq]
  exact not_le.mpr (hmiss e he)

/-- C2: for every question whose nearest cache entry has similarity strictly
below the 0.99 threshold (vacuously, also when the cache is empty), the query
flow invokes generation exactly once and afterwards persists a new cache entry
holding the question text, its embedding, and the generated answer. -/
theorem claim2_cache_miss_generates_once_and_persists (sim : Vec → Vec → ℚ)
    (embed : String → Vec) (gen : String → Option String)
    (cache : List CacheEntry) (q a : String)
    (hmiss : ∀ e ∈ cache, sim (embed q) e.vector < cacheScoreThreshold)
    (hgen : gen q = some a) :
    queryFlow sim embed gen cache q =
      { answer := some a, genCalls := 1,
        cache := cache ++ [{ prompt := q, vector := embed q, answer := a }] } := by
  simp only [queryFlow]
  rw [cacheLookup_none_of_below sim (embed q) cache hmiss, hgen]

/-- C2 witness: querying an empty cache with a successful generator yields the
generated answer, one generation call, and the new entry persisted. -/
theorem claim2_witness :
    queryFlow (fun _ _ => (0 : ℚ)) (fun _ => ([] : Vec)) (fun _ => some "generated")
        [] "q1" =
      { answer := some "generated", genCalls := 1,
        cache := [] ++ [{ prompt := "q1", vector := [], answer := "generated" }] } :=
  claim2_cache_miss_generates_once_and_persists (fun _ _ => (0 : ℚ))
    (fun _ => ([] : Vec)) (fun _ => some "generated") [] "q1" "generated"
    (fun e he => absurd he (List.not_mem_nil e)) rfl

/-- C3: when the generation call fails on a cache miss, the error propagates
to the caller (no answer is delivered), no fallback answer is synthesized, and
no cache entry is written — the cache store is unchanged. -/
theorem claim3_failed_generation_writes_nothing (sim : Vec → Vec → ℚ)
    (embed : String → Vec) (gen : String → Option String)
    (cache : List CacheEntry) (q : String)
    (hmiss : ∀ e ∈ cache, sim (embed q) e.vector < cacheScoreThreshold)
    (hgen : gen q = none) :
    queryFlow sim embed gen cache q =
      { answer := none, genCalls := 1, cache := cache } := by
  simp only [queryFlow]
  rw [cacheLookup_none_of_below sim (embed q) cache hmiss, hgen]

/-- C3 witness: querying a one-entry cache (below threshold) with a failing
generator propagates the failure and leaves the cache unchanged. -/
theorem claim3_witness :
    queryFlow (fun _ _ => (0 : ℚ)) (fun _ => ([] : Vec)) (fun _ => none)
        [{ prompt := "q0", vector := [], answer := "a0" }] "q1" =
      { answer := none, genCalls := 1,
        cache := [{ prompt := "q0", vector := [], answer := "a0" }] } :=
  claim3_failed_generation_writes_nothing (fun _ _ => (0 : ℚ))
    (fun _ => ([] : Vec)) (fun _ => none)
    [{ prompt := "q0", vector := [], answer := "a0" }] "q1"
    (fun e he => by
      rcases List.mem_singleton.mp he with rfl
      norm_num [cacheScoreThreshold])
    rfl

/-- C6: the content-store retrieval step returns at most 5 records, and every
returned record has similarity to the question at or above the 0.2
threshold. -/
theorem claim6_retrieval_at_most_five_above_threshold (sim : Vec → Vec → ℚ)
    (qv : Vec) (store : List StoredDoc) :
    (retrieve sim qv store).length ≤ 5 ∧
      ∀ d ∈ retrieve sim qv store, retrieverScoreThreshold ≤ sim qv d.vector := by
  constructor
  · have : (retrieve sim qv store).length ≤ retrieverK := by
      unfold retrieve similaritySearch
      exact List.length_take_le _ _
    exact this
  · intro d hd
    have hmem : d ∈ (store.filter
        (fun d => retrieverScoreThreshold ≤ sim qv d.vector)).insertionSort
        (fun a b => sim qv b.vector ≤ sim qv a.vector) := by
      unfold retrieve similaritySearch at hd
      exact (List.take_sublist _ _).mem hd
    rw [List.mem_insertionSort, List.mem_filter] at hmem
    simpa using hmem.2

/-- C6 witness: retrieving from a two-document store with a constant
similarity of 1 returns at most 5 records, each above the threshold. -/
theorem claim6_witness :
    (retrieve (fun _ _ => (1 : ℚ)) []
        [{ record := { overview := "a", payload := [] }, vector := [] },
          { record := { overview := "b", payload := [] }, vector := [] }]).length ≤ 5 ∧
      ∀ d ∈ retrieve (fun _ _ => (1 : ℚ)) []
          [{ record := { overview := "a", payload := [] }, vector := [] },
            { record := { overview := "b", payload := [] }, vector := [] }],
        retrieverScoreThreshold ≤ (fun _ _ => (1 : ℚ)) ([] : Vec) d.vector :=
  claim6_retrieval_at_most_five_above_threshold (fun _ _ => (1 : ℚ)) []
    [{ record := { overview := "a", payload := [] }, vector := [] },
      { record := { overview := "b", payload := [] }, vector := [] }]

/-- The database `createCollection` leaves at its own name. -/
theorem createCollection_self (server : ServerState) (dbName collName : String) :
    createCollection server dbName collName dbName =
      some { colls := fun c =>
        if c = collName then
          some ((((server dbName).getD { colls := fun _ => none }).colls collName).getD [])
        else ((server dbName).getD { colls := fun _ => none }).colls c } := by
  unfold createCollection
  simp

/-- C8: the setup cell drops the configured database whenever it exists before
recreating the two collections, so after setup the database holds exactly the
content collection and the cache collection, both empty: every run starts from
an empty content store and an empty cache store, whatever existed before. -/
theorem claim8_setup_starts_empty (server : ServerState)
    (dbName collName cacheName : String) :
    ∃ db, setupCell server dbName collName cacheName dbName = some db ∧
      db.colls collName = some [] ∧
      db.colls cacheName = some [] ∧
      ∀ c, c ≠ collName → c ≠ cacheName → db.colls c = none := by
  set s1 := if (server dbName).isSome then drop_database server dbName else server
    with hs1def
  have h1 : s1 dbName = none := by
    rw [hs1def]
    cases hs : server dbName with
    | none => simp [hs]
    | some db => simp [hs, drop_database]
  set s2 := createCollection s1 dbName collName with hs2def
  have h2 : s2 dbName
      = some { colls := fun c => if c = collName then some [] else none } := by
    rw [hs2def, createCollection_self, h1]
    rfl
  have hsetup : setupCell server dbName collName cacheName
      = createCollection s2 dbName cacheName := by
    rw [hs2def, hs1def]
    rfl
  have h3 : createCollection s2 dbName cacheName dbName
      = some { colls := fun c =>
          if c = cacheName then some []
          else if c = collName then some [] else none } := by
    rw [createCollection_self, h2]
    simp only [Option.getD_some, Option.some.injEq, CosmosDatabase.mk.injEq]
    funext c
    by_cases hc : c = cacheName
    · by_cases hcc : cacheName = collName <;> simp [hc, hcc]
    · simp [hc]
  refine ⟨_, by rw [hsetup]; exact h3, ?_, ?_, ?_⟩
  · by_cases hcc : collName = cacheName <;> simp [hcc]
  · simp
  · intro c hc1 hc2
    simp [hc1, hc2]

/-- C8 witness: running setup against a server already holding the database
with populated collections yields an empty content store and an empty cache
store. -/
theorem claim8_witness :
    ∃ db,
      setupCell
          (fun n => if n = "db" then
            some { colls := fun c => if c = "movies" then some ["olddoc"] else none }
          else none)
          "db" "movies" "cache" "db" = some db ∧
        db.colls "movies" = some [] ∧
        db.colls "cache" = some [] ∧
        ∀ c, c ≠ "movies" → c ≠ "cache" → db.colls c = none :=
  claim8_setup_starts_empty
    (fun n => if n = "db" then
      some { colls := fun c => if c = "movies" then some ["olddoc"] else none }
    else none)
    "db" "movies" "cache"

end IntroApps
